import Mathlib

/-!
Status widgets of the `nice_oled_custom` shield.

A shallow embedding of `widgets/util.c`, `widgets/status.c` (central half) and
`widgets/peripheral_status.c` (peripheral half).

* A drawing routine is embedded as the list of canvas calls it issues on its
  `canvas` argument, in program order.
* The static widget list is embedded as the intrusive singly linked list it is:
  a head pointer, a tail pointer and the `next` field of every node.
* The pixel meaning of `lv_canvas_draw_rect` (a solid fill clipped to the
  canvas) is given separately, for the claims that speak about pixels.
-/

set_option autoImplicit false

/-! ## Toolkit vocabulary used by the widgets -/

/-- Modelled from the spec: `util.h` is missing; the canvases are monochrome, so
its two colour macros `LVGL_FOREGROUND` and `LVGL_BACKGROUND` are taken as the
two distinct colours of the display. -/
inductive lv_color_t where
  | LVGL_FOREGROUND
  | LVGL_BACKGROUND
  deriving DecidableEq, Repr

/-- Text alignments passed to `init_label_dsc`. -/
inductive lv_text_align_t where
  | LV_TEXT_ALIGN_LEFT
  | LV_TEXT_ALIGN_CENTER
  deriving DecidableEq, Repr

/-- Fonts passed to `init_label_dsc`. -/
inductive lv_font_t where
  | lv_font_montserrat_12
  deriving DecidableEq, Repr

/-- Image descriptors handed to `lv_canvas_draw_img`. -/
inductive lv_img_dsc_t where
  | bolt
  deriving DecidableEq, Repr

/-- Colour formats handed to `lv_canvas_set_buffer`. -/
inductive lv_img_cf_t where
  | LV_IMG_CF_TRUE_COLOR
  deriving DecidableEq, Repr

/-- Object alignments handed to `lv_obj_align`. -/
inductive lv_align_t where
  | LV_ALIGN_TOP_LEFT
  | LV_ALIGN_TOP_RIGHT
  deriving DecidableEq, Repr

/-- Full opacity. -/
def LV_OPA_COVER : Nat := 255

/-- The fields of a rectangle descriptor that the widgets set. -/
structure lv_draw_rect_dsc_t where
  bg_color : lv_color_t
  deriving DecidableEq, Repr

/-- The fields of a label descriptor that the widgets set. -/
structure lv_draw_label_dsc_t where
  color : lv_color_t
  font : lv_font_t
  align : lv_text_align_t
  deriving DecidableEq, Repr

/-- One call on a canvas object. -/
inductive canvas_call where
  | lv_canvas_fill_bg (color : lv_color_t) (opa : Nat)
  | lv_canvas_draw_rect (x y w h : Int) (dsc : lv_draw_rect_dsc_t)
  | lv_canvas_draw_text (x y max_w : Int) (dsc : lv_draw_label_dsc_t) (txt : String)
  | lv_canvas_draw_img (x y : Int) (src : lv_img_dsc_t)
  deriving DecidableEq, Repr

/-! ## Host firmware vocabulary -/

/-- The transport tag of an endpoint, as the integer value of the host enum. -/
abbrev zmk_transport := Int

/-- The USB transport, the first enumerator of the host enum. -/
def ZMK_TRANSPORT_USB : zmk_transport := 0

/-- The BLE transport, the second enumerator of the host enum. -/
def ZMK_TRANSPORT_BLE : zmk_transport := 1

/-- The part of an endpoint instance that `draw_top` reads. -/
structure zmk_endpoint_instance where
  transport : zmk_transport
  deriving DecidableEq, Repr

/-- Modelled from the spec: `util.h` is missing, so `struct status_state` is
rebuilt from the fields `status_get_state` initialises and the drawing routines
read: battery level (a `uint8_t`), charging state, BLE/USB connection state,
active BLE profile and active keymap layer. A `NULL` `layer_label` is `none`. -/
structure status_state where
  battery : Nat
  charging : Bool
  selected_endpoint : zmk_endpoint_instance
  active_profile_index : Int
  active_profile_connected : Bool
  active_profile_bonded : Bool
  layer_index : Nat
  layer_label : Option String
  deriving DecidableEq, Repr

/-- The state of the peripheral half (`peripheral_status.c`). -/
structure peripheral_state where
  battery : Nat
  charging : Bool
  connected : Bool
  deriving DecidableEq, Repr

/-- Modelled from the spec: `util.h` is missing; the canvases are 128 wide. -/
def SCREEN_W : Int := 128

/-- Modelled from the spec: `util.h` is missing; the canvases are 32 high. -/
def SCREEN_H : Int := 32

/-- The characters that the conversion `%d` produces for a value. -/
def fmt_d (v : Int) : List Char := (toString v).toList

/-- What a buffer of `size` bytes holds after `snprintf` was asked to write the
characters `out`: at most `size - 1` of them, then the terminator. -/
def snprintf (size : Nat) (out : List Char) : String := String.mk (out.take (size - 1))

/-! ## util.c -/

/-- Embedding of `init_rect_dsc`. -/
def init_rect_dsc (bg_color : lv_color_t) : lv_draw_rect_dsc_t :=
  { bg_color := bg_color }

/-- Embedding of `init_label_dsc`. -/
def init_label_dsc (color : lv_color_t) (font : lv_font_t) (align : lv_text_align_t) :
    lv_draw_label_dsc_t :=
  { color := color, font := font, align := align }

/-- The width expression `(state->battery + 5) / 6`: the `uint8_t` operand is
promoted to `int`, so the sum is at most 260 and the division is exact integer
division of a non-negative value. -/
def battery_fill_width (battery : Nat) : Int := Int.tdiv ((battery : Int) + 5) 6

/-- Embedding of `draw_battery`: the calls issued on `canvas`. -/
def draw_battery (state : status_state) : List canvas_call :=
  let rect_black_dsc := init_rect_dsc .LVGL_BACKGROUND
  let rect_white_dsc := init_rect_dsc .LVGL_FOREGROUND
  [ .lv_canvas_draw_rect 0 0 20 8 rect_white_dsc,
    .lv_canvas_draw_rect 1 1 18 6 rect_black_dsc,
    .lv_canvas_draw_rect 2 2 (battery_fill_width state.battery) 4 rect_white_dsc,
    .lv_canvas_draw_rect 20 2 2 4 rect_white_dsc,
    .lv_canvas_draw_rect 21 3 1 2 rect_black_dsc ] ++
  (if state.charging then [ .lv_canvas_draw_img 5 (-3) .bolt ] else [])

/-! ## status.c: drawing -/

namespace status

/-- Embedding of `draw_top`: the calls issued on `canvas`. -/
def draw_top (state : status_state) : List canvas_call :=
  let rect_fg := init_rect_dsc .LVGL_FOREGROUND
  let rect_bg := init_rect_dsc .LVGL_BACKGROUND
  let label_dsc := init_label_dsc .LVGL_FOREGROUND .lv_font_montserrat_12 .LV_TEXT_ALIGN_LEFT
  let profile_str := snprintf 4 (fmt_d (state.active_profile_index + 1))
  draw_battery state ++
  (if state.active_profile_connected then
    let label_inv :=
      init_label_dsc .LVGL_BACKGROUND .lv_font_montserrat_12 .LV_TEXT_ALIGN_CENTER
    [ .lv_canvas_draw_rect 24 0 10 10 rect_fg,
      .lv_canvas_draw_text 24 (-1) 10 label_inv profile_str ]
  else if state.active_profile_bonded then
    [ .lv_canvas_draw_rect 24 0 10 10 rect_fg,
      .lv_canvas_draw_rect 25 1 8 8 rect_bg,
      .lv_canvas_draw_text 24 (-1) 10 label_dsc profile_str ]
  else
    [ .lv_canvas_draw_text 24 (-1) 10 label_dsc profile_str ]) ++
  (let endpoint := state.selected_endpoint
   let conn_label := if endpoint.transport = ZMK_TRANSPORT_USB then "USB" else "BT"
   [ .lv_canvas_draw_text 36 (-1) 20 label_dsc conn_label ])

/-- Embedding of `draw_layer`: the calls issued on `canvas`. -/
def draw_layer (state : status_state) : List canvas_call :=
  let label_dsc := init_label_dsc .LVGL_FOREGROUND .lv_font_montserrat_12 .LV_TEXT_ALIGN_LEFT
  match state.layer_label with
  | none =>
    let buf := snprintf 8 ('L' :: fmt_d (state.layer_index : Int))
    [ .lv_canvas_draw_text 0 16 128 label_dsc buf ]
  | some layer_name =>
    [ .lv_canvas_draw_text 0 16 128 label_dsc layer_name ]

/-- Embedding of `draw_status`: the calls issued on `widget->obj`. -/
def draw_status (state : status_state) : List canvas_call :=
  .lv_canvas_fill_bg .LVGL_BACKGROUND LV_OPA_COVER :: (draw_top state ++ draw_layer state)

end status

/-! ## peripheral_status.c: drawing -/

namespace peripheral_status

/-- Embedding of `draw_peripheral_battery`: the calls issued on `canvas`. -/
def draw_peripheral_battery (state : peripheral_state) : List canvas_call :=
  let rect_bg := init_rect_dsc .LVGL_BACKGROUND
  let rect_fg := init_rect_dsc .LVGL_FOREGROUND
  [ .lv_canvas_draw_rect 0 0 20 8 rect_fg,
    .lv_canvas_draw_rect 1 1 18 6 rect_bg,
    .lv_canvas_draw_rect 2 2 (battery_fill_width state.battery) 4 rect_fg,
    .lv_canvas_draw_rect 20 2 2 4 rect_fg,
    .lv_canvas_draw_rect 21 3 1 2 rect_bg ] ++
  (if state.connected then
    [ .lv_canvas_draw_rect 24 10 4 4 rect_fg ]
  else
    [ .lv_canvas_draw_rect 24 10 4 4 rect_fg,
      .lv_canvas_draw_rect 25 11 2 2 rect_bg ])

end peripheral_status

/-! ## Host firmware queries -/

/-- What the host firmware answers when a state getter asks, together with the
build options the getters and initialisers are compiled under. -/
structure zmk_host where
  CONFIG_USB_DEVICE_STACK : Bool
  CONFIG_ZMK_SPLIT_BLE : Bool
  CONFIG_ZMK_SPLIT_ROLE_PERIPHERAL : Bool
  CONFIG_CUSTOM_ANIMATION_SPEED : Nat
  zmk_battery_state_of_charge : Nat
  zmk_usb_is_powered : Bool
  zmk_endpoints_selected : zmk_endpoint_instance
  zmk_ble_active_profile_index : Int
  zmk_ble_active_profile_is_connected : Bool
  zmk_ble_active_profile_is_open : Bool
  zmk_keymap_highest_layer_active : Nat
  zmk_keymap_layer_name : Nat → Option String
  zmk_split_bt_peripheral_is_connected : Bool

/-! ## Widgets in memory and the static widget list -/

/-- Address of a `struct zmk_widget_status`. -/
abbrev widget_ptr := Nat

/-- Address of a toolkit object used as a parent. -/
abbrev lv_obj_ptr := Nat

/-- The list header `sys_slist_t`. -/
structure sys_slist_t where
  head : Option widget_ptr
  tail : Option widget_ptr
  deriving DecidableEq, Repr

/-- The static initialiser of a list header: both pointers `NULL`. -/
def SYS_SLIST_STATIC_INIT : sys_slist_t := { head := none, tail := none }

/-- A canvas object as `zmk_widget_status_init` leaves it: its parent, the
buffer, geometry and format given to `lv_canvas_set_buffer`, and the alignment
and offsets given to `lv_obj_align`. The buffer is always the `cbuf` of some
widget, so `buf` is the address of that widget. -/
structure lv_canvas_t where
  parent : lv_obj_ptr
  buf : widget_ptr
  buf_w : Int
  buf_h : Int
  cf : lv_img_cf_t
  align : lv_align_t
  x_ofs : Int
  y_ofs : Int
  deriving DecidableEq, Repr

/-- The `widgets` list of one compilation unit and the fields of every
`struct zmk_widget_status`, stored field by field: `node` is `widget->node.next`
and `obj` is `widget->obj` (`none` is `NULL`). `calls` records every call issued
on a widget's canvas, oldest first. -/
structure widget_memory where
  widgets : sys_slist_t
  node : widget_ptr → Option widget_ptr
  obj : widget_ptr → Option lv_canvas_t
  calls : List (widget_ptr × canvas_call)

/-- Memory at start-up: an empty list, zeroed widgets, nothing drawn. -/
def widget_memory.startup : widget_memory :=
  { widgets := SYS_SLIST_STATIC_INIT, node := fun _ => none, obj := fun _ => none, calls := [] }

/-- The kernel routine `sys_slist_append`: clear the node's `next`, then link it
after the tail, or make it head and tail of an empty list. -/
def sys_slist_append (m : widget_memory) (node : widget_ptr) : widget_memory :=
  let next := Function.update m.node node none
  match m.widgets.tail with
  | none => { m with node := next, widgets := { head := some node, tail := some node } }
  | some t =>
    { m with node := Function.update next t (some node),
             widgets := { m.widgets with tail := some node } }

/-- The kernel loop `SYS_SLIST_FOR_EACH_CONTAINER`, starting at `cur`: run
`body` on each widget and follow `next` until `NULL`. The result is what the
bodies produced, in order; `none` when `fuel` iterations did not reach `NULL`. -/
def SYS_SLIST_FOR_EACH_CONTAINER {α : Type} (node : widget_ptr → Option widget_ptr)
    (body : widget_ptr → List α) : Nat → Option widget_ptr → Option (List α)
  | _, none => some []
  | 0, some _ => none
  | fuel + 1, some w =>
    (SYS_SLIST_FOR_EACH_CONTAINER node body fuel (node w)).map (fun rest => body w ++ rest)

/-- The widgets a traversal of the list visits, in order. -/
def registered (fuel : Nat) (m : widget_memory) : Option (List widget_ptr) :=
  SYS_SLIST_FOR_EACH_CONTAINER m.node (fun w => [w]) fuel m.widgets.head

/-! ## status.c: state, callback, initialiser -/

namespace status

/-- Embedding of `status_get_state`. -/
def status_get_state (host : zmk_host) : status_state :=
  { battery := host.zmk_battery_state_of_charge,
    charging := if host.CONFIG_USB_DEVICE_STACK then host.zmk_usb_is_powered else false,
    selected_endpoint := host.zmk_endpoints_selected,
    active_profile_index := host.zmk_ble_active_profile_index,
    active_profile_connected := host.zmk_ble_active_profile_is_connected,
    active_profile_bonded := !host.zmk_ble_active_profile_is_open,
    layer_index := host.zmk_keymap_highest_layer_active,
    layer_label := host.zmk_keymap_layer_name host.zmk_keymap_highest_layer_active }

/-- Embedding of `status_update_cb`: `draw_status` on every widget of the list. -/
def status_update_cb (fuel : Nat) (state : status_state) (m : widget_memory) :
    Option widget_memory :=
  (SYS_SLIST_FOR_EACH_CONTAINER m.node
      (fun widget => (draw_status state).map (fun c => (widget, c))) fuel m.widgets.head).map
    (fun drawn => { m with calls := m.calls ++ drawn })

/-- The initialiser that `ZMK_DISPLAY_WIDGET_LISTENER` generates for
`widget_status`: take a snapshot with the state getter and run the callback. -/
def widget_status_init (fuel : Nat) (host : zmk_host) (m : widget_memory) :
    Option widget_memory :=
  status_update_cb fuel (status_get_state host) m

/-- Embedding of `zmk_widget_status_init` of the central half: the return value
and the memory afterwards. -/
def zmk_widget_status_init (fuel : Nat) (host : zmk_host) (m : widget_memory)
    (widget : widget_ptr) (parent : lv_obj_ptr) : Option (Int × widget_memory) :=
  let canvas : lv_canvas_t :=
    { parent := parent, buf := widget, buf_w := SCREEN_W, buf_h := SCREEN_H,
      cf := .LV_IMG_CF_TRUE_COLOR, align := .LV_ALIGN_TOP_LEFT, x_ofs := 0, y_ofs := 0 }
  let m1 := { m with obj := Function.update m.obj widget (some canvas) }
  let m2 := sys_slist_append m1 widget
  (widget_status_init fuel host m2).map (fun m3 => (0, m3))

/-- A run of initialiser calls, each with the host answers of its moment:
the return values and the memory afterwards. -/
def init_run (fuel : Nat) :
    widget_memory → List (widget_ptr × lv_obj_ptr × zmk_host) → Option (List Int × widget_memory)
  | m, [] => some ([], m)
  | m, (widget, parent, host) :: rest =>
    match zmk_widget_status_init fuel host m widget parent with
    | none => none
    | some (r, m1) => (init_run fuel m1 rest).map (fun out => (r :: out.1, out.2))

end status

/-! ## peripheral_status.c: state, callback, initialiser -/

namespace peripheral_status

/-- Image tables handed to `lv_animimg_set_src`. -/
inductive lv_animimg_src_t where
  | anim_imgs
  deriving DecidableEq, Repr

/-- The animated image object that the peripheral initialiser creates. -/
structure lv_animimg_t where
  parent : lv_obj_ptr
  src : lv_animimg_src_t
  w : Int
  h : Int
  align : lv_align_t
  x_ofs : Int
  y_ofs : Int
  duration : Nat
  repeat_infinite : Bool
  started : Bool
  deriving DecidableEq, Repr

/-- The statics of `peripheral_status.c` and the objects it creates. -/
structure memory where
  mem : widget_memory
  last_state : peripheral_state
  anims : List lv_animimg_t

/-- Memory at start-up: `last_state = {0}`, an empty list, no objects. -/
def memory.startup : memory :=
  { mem := widget_memory.startup,
    last_state := { battery := 0, charging := false, connected := false },
    anims := [] }

/-- Embedding of `peripheral_get_state`. -/
def peripheral_get_state (host : zmk_host) : peripheral_state :=
  { battery := host.zmk_battery_state_of_charge,
    charging := if host.CONFIG_USB_DEVICE_STACK then host.zmk_usb_is_powered else false,
    connected :=
      if host.CONFIG_ZMK_SPLIT_BLE && host.CONFIG_ZMK_SPLIT_ROLE_PERIPHERAL then
        host.zmk_split_bt_peripheral_is_connected
      else true }

/-- The calls one iteration of the loop in `update_peripheral_cb` issues. -/
def redraw (state : peripheral_state) : List canvas_call :=
  .lv_canvas_fill_bg .LVGL_BACKGROUND LV_OPA_COVER :: draw_peripheral_battery state

/-- Embedding of `update_peripheral_cb`: store the state, then redraw every
widget of the list from the stored state. -/
def update_peripheral_cb (fuel : Nat) (state : peripheral_state) (m : memory) : Option memory :=
  let m1 := { m with last_state := state }
  (SYS_SLIST_FOR_EACH_CONTAINER m1.mem.node
      (fun widget => (redraw m1.last_state).map (fun c => (widget, c)))
      fuel m1.mem.widgets.head).map
    (fun drawn => { m1 with mem := { m1.mem with calls := m1.mem.calls ++ drawn } })

/-- The initialiser that `ZMK_DISPLAY_WIDGET_LISTENER` generates for
`widget_peripheral_status`: take a snapshot and run the callback. -/
def widget_peripheral_status_init (fuel : Nat) (host : zmk_host) (m : memory) : Option memory :=
  update_peripheral_cb fuel (peripheral_get_state host) m

/-- Embedding of `zmk_widget_status_init` of the peripheral half: the return
value and the memory afterwards. -/
def zmk_widget_status_init (fuel : Nat) (host : zmk_host) (m : memory)
    (widget : widget_ptr) (parent : lv_obj_ptr) : Option (Int × memory) :=
  let art_anim : lv_animimg_t :=
    { parent := parent, src := .anim_imgs, w := 128, h := 32, align := .LV_ALIGN_TOP_LEFT,
      x_ofs := 0, y_ofs := 0, duration := host.CONFIG_CUSTOM_ANIMATION_SPEED,
      repeat_infinite := true, started := true }
  let canvas : lv_canvas_t :=
    { parent := parent, buf := widget, buf_w := 32, buf_h := 16, cf := .LV_IMG_CF_TRUE_COLOR,
      align := .LV_ALIGN_TOP_RIGHT, x_ofs := 0, y_ofs := 0 }
  let m1 : memory :=
    { m with anims := m.anims ++ [art_anim],
             mem := { m.mem with obj := Function.update m.mem.obj widget (some canvas) } }
  let m2 : memory := { m1 with mem := sys_slist_append m1.mem widget }
  (widget_peripheral_status_init fuel host m2).map (fun m3 => (0, m3))

/-- A run of initialiser calls, each with the host answers of its moment:
the return values and the memory afterwards. -/
def init_run (fuel : Nat) :
    memory → List (widget_ptr × lv_obj_ptr × zmk_host) → Option (List Int × memory)
  | m, [] => some ([], m)
  | m, (widget, parent, host) :: rest =>
    match zmk_widget_status_init fuel host m widget parent with
    | none => none
    | some (r, m1) => (init_run fuel m1 rest).map (fun out => (r :: out.1, out.2))

end peripheral_status

/-! ## Pixels -/

/-- A canvas buffer: its configured size and the colour of every pixel. -/
structure canvas_px where
  w : Int
  h : Int
  px : Int → Int → lv_color_t

/-- Pixel `(X, Y)` lies in the rectangle with corner `(x, y)` and size `w` by `h`. -/
def rect_covers (x y w h X Y : Int) : Prop :=
  x ≤ X ∧ X < x + w ∧ y ≤ Y ∧ Y < y + h

instance (x y w h X Y : Int) : Decidable (rect_covers x y w h X Y) := by
  unfold rect_covers; infer_instance

/-- Pixel `(X, Y)` lies in the rectangle that a call fills; no pixel for calls
that are not rectangles. -/
def call_covers : canvas_call → Int → Int → Prop
  | .lv_canvas_draw_rect x y w h _, X, Y => rect_covers x y w h X Y
  | _, _, _ => False

/-- Pixel meaning of one call. A rectangle with a freshly initialised descriptor
is a solid fill in `bg_color`, clipped to the canvas; a background fill at full
opacity sets every pixel. Text and images are drawn from glyph and bitmap data
that is not part of the widgets, so they have no pixel meaning here. -/
def paint (cv : canvas_px) : canvas_call → Option canvas_px
  | .lv_canvas_fill_bg color opa =>
    if opa = LV_OPA_COVER then some { cv with px := fun _ _ => color } else none
  | .lv_canvas_draw_rect x y w h dsc =>
    some { cv with px := fun X Y =>
      if 0 ≤ X ∧ X < cv.w ∧ 0 ≤ Y ∧ Y < cv.h ∧ rect_covers x y w h X Y then dsc.bg_color
      else (cv.px X Y) }
  | .lv_canvas_draw_text _ _ _ _ _ => none
  | .lv_canvas_draw_img _ _ _ => none

/-- Pixel meaning of a sequence of calls, applied in order. -/
def render : canvas_px → List canvas_call → Option canvas_px
  | cv, [] => some cv
  | cv, c :: rest =>
    match paint cv c with
    | none => none
    | some cv1 => render cv1 rest

/-! ## Well-formed lists -/

/-- Following `next` from `start` visits exactly the widgets of `l`, in order,
and then reaches `NULL`. -/
def chain (node : widget_ptr → Option widget_ptr) : List widget_ptr → Option widget_ptr → Prop
  | [], start => start = none
  | w :: l, start => start = some w ∧ chain node l (node w)

/-- The header and the `next` fields hold the list `l`: the head starts a chain
through `l`, the tail is its last element, and no widget is linked twice. -/
structure slist_holds (ws : sys_slist_t) (node : widget_ptr → Option widget_ptr)
    (l : List widget_ptr) : Prop where
  chained : chain node l ws.head
  tail_last : ws.tail = l.getLast?
  nodup : l.Nodup

/-- The canvas the central initialiser configures for `widget` under `parent`. -/
def status.canvas_of (widget : widget_ptr) (parent : lv_obj_ptr) : lv_canvas_t :=
  { parent := parent, buf := widget, buf_w := 128, buf_h := 32, cf := .LV_IMG_CF_TRUE_COLOR,
    align := .LV_ALIGN_TOP_LEFT, x_ofs := 0, y_ofs := 0 }

/-- The canvas the peripheral initialiser configures for `widget` under `parent`. -/
def peripheral_status.canvas_of (widget : widget_ptr) (parent : lv_obj_ptr) : lv_canvas_t :=
  { parent := parent, buf := widget, buf_w := 32, buf_h := 16, cf := .LV_IMG_CF_TRUE_COLOR,
    align := .LV_ALIGN_TOP_RIGHT, x_ofs := 0, y_ofs := 0 }

/-- A sample of host answers, for concrete evaluations. -/
def host_sample : zmk_host :=
  { CONFIG_USB_DEVICE_STACK := true,
    CONFIG_ZMK_SPLIT_BLE := true,
    CONFIG_ZMK_SPLIT_ROLE_PERIPHERAL := true,
    CONFIG_CUSTOM_ANIMATION_SPEED := 300,
    zmk_battery_state_of_charge := 55,
    zmk_usb_is_powered := false,
    zmk_endpoints_selected := { transport := ZMK_TRANSPORT_BLE },
    zmk_ble_active_profile_index := 0,
    zmk_ble_active_profile_is_connected := true,
    zmk_ble_active_profile_is_open := false,
    zmk_keymap_highest_layer_active := 0,
    zmk_keymap_layer_name := fun _ => none,
    zmk_split_bt_peripheral_is_connected := true }

/-! # Theorems -/

/-! ## Shared lemmas -/

theorem battery_fill_width_eq (b : Nat) : battery_fill_width b = ((b : Int) + 5) / 6 := by
  unfold battery_fill_width
  rw [Int.tdiv_eq_ediv] <;> omega

theorem fmt_d_natCast (n : Nat) : fmt_d (n : Int) = (Nat.repr n).toList := rfl

theorem snprintf_fits (size : Nat) (out : List Char) (h : out.length + 1 ≤ size) :
    snprintf size out = String.mk out := by
  unfold snprintf
  rw [List.take_of_length_le (by omega)]

theorem fmt_d_length_le (n e : Nat) (he : 0 < e) (h : n < 10 ^ e) :
    (fmt_d (n : Int)).length ≤ e := by
  rw [fmt_d_natCast]
  exact Nat.repr_length n e he h

/-! ## The battery bar -/

/-- C10: the fill width `(b + 5) / 6` is computed in `int` without wrap-around
(the sum stays below `2 ^ 31` and the quotient fits a 16-bit coordinate), is
monotone non-decreasing over the `uint8_t` range, equals the ceiling of `b / 6`,
and is zero exactly for `b = 0`; `draw_battery` and `draw_peripheral_battery`
both use it as the width of their third rectangle. -/
theorem battery_fill_width_monotone_ceiling (a b : Nat) (hab : a ≤ b) (hb : b ≤ 255) :
    battery_fill_width a ≤ battery_fill_width b ∧
    battery_fill_width b = ⌈(b : ℚ) / 6⌉ ∧
    (battery_fill_width b = 0 ↔ b = 0) ∧
    ((b : Int) + 5 < 2 ^ 31 ∧ 0 ≤ battery_fill_width b ∧ battery_fill_width b < 2 ^ 15) ∧
    (∀ s : status_state, s.battery = b →
      (draw_battery s)[2]? =
        some (.lv_canvas_draw_rect 2 2 (battery_fill_width b) 4 (init_rect_dsc .LVGL_FOREGROUND))) ∧
    (∀ p : peripheral_state, p.battery = b →
      (peripheral_status.draw_peripheral_battery p)[2]? =
        some (.lv_canvas_draw_rect 2 2 (battery_fill_width b) 4 (init_rect_dsc .LVGL_FOREGROUND))) := by
  have ea := battery_fill_width_eq a
  have eb := battery_fill_width_eq b
  refine ⟨by omega, ?_, by omega, ⟨by omega, by omega, by omega⟩, ?_, ?_⟩
  · symm
    rw [Int.ceil_eq_iff]
    have h1 : (6 : ℚ) * (battery_fill_width b - 1) < b := by
      have : 6 * (battery_fill_width b - 1) < (b : Int) := by omega
      exact_mod_cast this
    have h2 : (b : ℚ) ≤ 6 * battery_fill_width b := by
      have : (b : Int) ≤ 6 * battery_fill_width b := by omega
      exact_mod_cast this
    constructor
    · rw [lt_div_iff₀ (by norm_num)]; linarith
    · rw [div_le_iff₀ (by norm_num)]; linarith
  · intro s hs
    subst hs
    rfl
  · intro p hp
    subst hp
    rfl

/-- Witness for C10 at the levels 6 and 7. -/
theorem battery_fill_width_monotone_ceiling_witness :
    battery_fill_width 6 ≤ battery_fill_width 7 ∧ battery_fill_width 7 = ⌈((7 : Nat) : ℚ) / 6⌉ :=
  ⟨(battery_fill_width_monotone_ceiling 6 7 (by decide) (by decide)).1,
   (battery_fill_width_monotone_ceiling 6 7 (by decide) (by decide)).2.1⟩

/-- C2: for a battery level of at most 100 the fill rectangle of `draw_battery`
and of `draw_peripheral_battery` is `2, 2, (b + 5) / 6, 4`, its right edge
`2 + (b + 5) / 6` is at most 19, and every pixel it covers lies in the cleared
interior `1, 1, 18, 6`, hence neither on the outline of the `20 x 8` frame nor in
the nub at `x = 20 .. 21`. -/
theorem battery_fill_inside_interior (s : status_state) (p : peripheral_state)
    (hs : s.battery ≤ 100) (hp : p.battery ≤ 100) :
    (draw_battery s).take 5 =
      [ .lv_canvas_draw_rect 0 0 20 8 (init_rect_dsc .LVGL_FOREGROUND),
        .lv_canvas_draw_rect 1 1 18 6 (init_rect_dsc .LVGL_BACKGROUND),
        .lv_canvas_draw_rect 2 2 (((s.battery : Int) + 5) / 6) 4 (init_rect_dsc .LVGL_FOREGROUND),
        .lv_canvas_draw_rect 20 2 2 4 (init_rect_dsc .LVGL_FOREGROUND),
        .lv_canvas_draw_rect 21 3 1 2 (init_rect_dsc .LVGL_BACKGROUND) ] ∧
    (peripheral_status.draw_peripheral_battery p).take 5 =
      [ .lv_canvas_draw_rect 0 0 20 8 (init_rect_dsc .LVGL_FOREGROUND),
        .lv_canvas_draw_rect 1 1 18 6 (init_rect_dsc .LVGL_BACKGROUND),
        .lv_canvas_draw_rect 2 2 (((p.battery : Int) + 5) / 6) 4 (init_rect_dsc .LVGL_FOREGROUND),
        .lv_canvas_draw_rect 20 2 2 4 (init_rect_dsc .LVGL_FOREGROUND),
        .lv_canvas_draw_rect 21 3 1 2 (init_rect_dsc .LVGL_BACKGROUND) ] ∧
    2 + ((s.battery : Int) + 5) / 6 ≤ 19 ∧
    2 + ((p.battery : Int) + 5) / 6 ≤ 19 ∧
    (∀ b : Nat, b = s.battery ∨ b = p.battery → ∀ X Y : Int,
      rect_covers 2 2 (((b : Int) + 5) / 6) 4 X Y →
        rect_covers 1 1 18 6 X Y ∧
        ¬ (rect_covers 0 0 20 8 X Y ∧ ¬ rect_covers 1 1 18 6 X Y) ∧
        ¬ rect_covers 20 2 2 4 X Y) := by
  refine ⟨?_, ?_, by omega, by omega, ?_⟩
  · simp [draw_battery, battery_fill_width_eq]
  · simp [peripheral_status.draw_peripheral_battery, battery_fill_width_eq]
  · intro b hb X Y hc
    have hb100 : b ≤ 100 := by rcases hb with h | h <;> omega
    unfold rect_covers at *
    omega

/-- Witness for C2 at a full battery on both halves. -/
theorem battery_fill_inside_interior_witness :
    2 + (((100 : Nat) : Int) + 5) / 6 ≤ 19 :=
  (battery_fill_inside_interior
    { battery := 100, charging := false, selected_endpoint := { transport := ZMK_TRANSPORT_USB },
      active_profile_index := 0, active_profile_connected := false,
      active_profile_bonded := false, layer_index := 0, layer_label := none }
    { battery := 100, charging := false, connected := true }
    (by decide) (by decide)).2.2.1

/-- C6: `draw_battery` first issues five rectangles that do not depend on
`charging`; the bolt image at `(5, -3)` follows as the last call exactly when
`charging` is set, and no image is drawn otherwise. -/
theorem draw_battery_charging_bolt (s : status_state) :
    (draw_battery s).take 5 =
      [ .lv_canvas_draw_rect 0 0 20 8 (init_rect_dsc .LVGL_FOREGROUND),
        .lv_canvas_draw_rect 1 1 18 6 (init_rect_dsc .LVGL_BACKGROUND),
        .lv_canvas_draw_rect 2 2 (battery_fill_width s.battery) 4 (init_rect_dsc .LVGL_FOREGROUND),
        .lv_canvas_draw_rect 20 2 2 4 (init_rect_dsc .LVGL_FOREGROUND),
        .lv_canvas_draw_rect 21 3 1 2 (init_rect_dsc .LVGL_BACKGROUND) ] ∧
    draw_battery s = (draw_battery s).take 5 ++
      (if s.charging then [ .lv_canvas_draw_img 5 (-3) .bolt ] else []) ∧
    ((draw_battery s).getLast? = some (.lv_canvas_draw_img 5 (-3) .bolt) ↔ s.charging = true) ∧
    ((∃ x y src, canvas_call.lv_canvas_draw_img x y src ∈ draw_battery s) ↔ s.charging = true) ∧
    (∀ c : Bool, (draw_battery { s with charging := c }).take 5 = (draw_battery s).take 5) := by
  refine ⟨by simp [draw_battery], ?_, ?_, ?_, ?_⟩
  · simp [draw_battery]
  · cases hc : s.charging <;> simp [draw_battery, hc]
  · cases hc : s.charging
    · simp [draw_battery, hc]
    · simp only [iff_true]
      exact ⟨5, -3, .bolt, by simp [draw_battery, hc]⟩
  · intro c
    simp [draw_battery]

/-! ## Text buffers -/

theorem profile_str_untruncated (v : Int) (h0 : 0 ≤ v) (h1 : v ≤ 999) :
    snprintf 4 (fmt_d v) = toString v := by
  obtain ⟨n, rfl⟩ := Int.eq_ofNat_of_zero_le h0
  have hn : n < 10 ^ 3 := by omega
  rw [snprintf_fits 4 _ (by have := fmt_d_length_le n 3 (by decide) hn; omega)]
  rfl

theorem layer_buf_untruncated (n : Nat) (h : n ≤ 255) :
    snprintf 8 ('L' :: fmt_d (n : Int)) = "L" ++ toString n := by
  have hn : n < 10 ^ 3 := by omega
  rw [snprintf_fits 8 _ (by
    have := fmt_d_length_le n 3 (by decide) hn
    simp only [List.length_cons]; omega)]
  rfl

/-! ## The top row of the central half -/

/-- C3: for a profile index between 0 and 998 the number drawn by `draw_top` is
the full decimal text of the index plus one, at `(24, -1)` with width 10. When
the profile is connected the frame is one filled `10 x 10` rectangle at `(24, 0)`
whose colour is the foreground colour and the number is drawn in the background
colour, whatever `bonded` is; when it is not connected but bonded the frame is
that foreground rectangle hollowed by an `8 x 8` rectangle at `(25, 1)` whose
colour is the background colour and the number is drawn in the foreground
colour. The colours are stated as the field values the descriptors end up
with. -/
theorem draw_top_profile_indicator (s : status_state)
    (h0 : 0 ≤ s.active_profile_index) (h1 : s.active_profile_index ≤ 998) :
    (s.active_profile_connected = true →
      status.draw_top s = draw_battery s ++
        [ .lv_canvas_draw_rect 24 0 10 10 { bg_color := .LVGL_FOREGROUND },
          .lv_canvas_draw_text 24 (-1) 10
            { color := .LVGL_BACKGROUND, font := .lv_font_montserrat_12,
              align := .LV_TEXT_ALIGN_CENTER }
            (toString (s.active_profile_index + 1)),
          .lv_canvas_draw_text 36 (-1) 20
            { color := .LVGL_FOREGROUND, font := .lv_font_montserrat_12,
              align := .LV_TEXT_ALIGN_LEFT }
            (if s.selected_endpoint.transport = ZMK_TRANSPORT_USB then "USB" else "BT") ]) ∧
    (s.active_profile_connected = false → s.active_profile_bonded = true →
      status.draw_top s = draw_battery s ++
        [ .lv_canvas_draw_rect 24 0 10 10 { bg_color := .LVGL_FOREGROUND },
          .lv_canvas_draw_rect 25 1 8 8 { bg_color := .LVGL_BACKGROUND },
          .lv_canvas_draw_text 24 (-1) 10
            { color := .LVGL_FOREGROUND, font := .lv_font_montserrat_12,
              align := .LV_TEXT_ALIGN_LEFT }
            (toString (s.active_profile_index + 1)),
          .lv_canvas_draw_text 36 (-1) 20
            { color := .LVGL_FOREGROUND, font := .lv_font_montserrat_12,
              align := .LV_TEXT_ALIGN_LEFT }
            (if s.selected_endpoint.transport = ZMK_TRANSPORT_USB then "USB" else "BT") ]) ∧
    (∃ dsc : lv_draw_label_dsc_t,
      (dsc.color = if s.active_profile_connected then lv_color_t.LVGL_BACKGROUND
        else lv_color_t.LVGL_FOREGROUND) ∧
      canvas_call.lv_canvas_draw_text 24 (-1) 10 dsc
        (toString (s.active_profile_index + 1)) ∈ status.draw_top s) ∧
    (toString (s.active_profile_index + 1)).length ≤ 3 := by
  have hstr := profile_str_untruncated (s.active_profile_index + 1) (by omega) (by omega)
  refine ⟨?_, ?_, ?_, ?_⟩
  · intro hc
    simp [status.draw_top, hc, hstr, init_rect_dsc, init_label_dsc]
  · intro hc hb
    simp [status.draw_top, hc, hb, hstr, init_rect_dsc, init_label_dsc]
  · cases hc : s.active_profile_connected
    · cases hb : s.active_profile_bonded
      · exact ⟨{ color := .LVGL_FOREGROUND, font := .lv_font_montserrat_12,
                 align := .LV_TEXT_ALIGN_LEFT },
          by simp, by simp [status.draw_top, hc, hb, hstr, init_label_dsc]⟩
      · exact ⟨{ color := .LVGL_FOREGROUND, font := .lv_font_montserrat_12,
                 align := .LV_TEXT_ALIGN_LEFT },
          by simp, by simp [status.draw_top, hc, hb, hstr, init_label_dsc]⟩
    · exact ⟨{ color := .LVGL_BACKGROUND, font := .lv_font_montserrat_12,
               align := .LV_TEXT_ALIGN_CENTER },
        by simp, by simp [status.draw_top, hc, hstr, init_label_dsc]⟩
  · obtain ⟨n, hn⟩ := Int.eq_ofNat_of_zero_le h0
    have e : s.active_profile_index + 1 = ((n + 1 : Nat) : Int) := by omega
    rw [e]
    exact Nat.repr_length (n + 1) 3 (by decide) (by omega)

/-- Witness for C3: the third profile, connected and bonded, is drawn as a
foreground square with the number 3 in background colour. -/
theorem draw_top_profile_indicator_witness :
    status.draw_top
      { battery := 80, charging := false,
        selected_endpoint := { transport := ZMK_TRANSPORT_BLE },
        active_profile_index := 2, active_profile_connected := true,
        active_profile_bonded := true, layer_index := 0, layer_label := none } =
    draw_battery
      { battery := 80, charging := false,
        selected_endpoint := { transport := ZMK_TRANSPORT_BLE },
        active_profile_index := 2, active_profile_connected := true,
        active_profile_bonded := true, layer_index := 0, layer_label := none } ++
      [ .lv_canvas_draw_rect 24 0 10 10 { bg_color := .LVGL_FOREGROUND },
        .lv_canvas_draw_text 24 (-1) 10
          { color := .LVGL_BACKGROUND, font := .lv_font_montserrat_12,
            align := .LV_TEXT_ALIGN_CENTER }
          (toString ((2 : Int) + 1)),
        .lv_canvas_draw_text 36 (-1) 20
          { color := .LVGL_FOREGROUND, font := .lv_font_montserrat_12,
            align := .LV_TEXT_ALIGN_LEFT }
          (if ZMK_TRANSPORT_BLE = ZMK_TRANSPORT_USB then "USB" else "BT") ] :=
  (draw_top_profile_indicator
    { battery := 80, charging := false,
      selected_endpoint := { transport := ZMK_TRANSPORT_BLE },
      active_profile_index := 2, active_profile_connected := true,
      active_profile_bonded := true, layer_index := 0, layer_label := none }
    (by decide) (by decide)).1 rfl

/-- C5: the last call of `draw_top` is the connection label, a text at `(36, -1)`
of width 20; the label is USB exactly when the selected transport is
`ZMK_TRANSPORT_USB` and BT for every other value; no other text is drawn at
that position; and the call is the same whatever the battery, charging, profile
and layer fields are. -/
theorem draw_top_connection_label (s : status_state) :
    (status.draw_top s).getLast? =
      some (.lv_canvas_draw_text 36 (-1) 20
        (init_label_dsc .LVGL_FOREGROUND .lv_font_montserrat_12 .LV_TEXT_ALIGN_LEFT)
        (if s.selected_endpoint.transport = ZMK_TRANSPORT_USB then "USB" else "BT")) ∧
    ((if s.selected_endpoint.transport = ZMK_TRANSPORT_USB then "USB" else "BT") = "USB" ↔
      s.selected_endpoint.transport = ZMK_TRANSPORT_USB) ∧
    ((if s.selected_endpoint.transport = ZMK_TRANSPORT_USB then "USB" else "BT") = "BT" ↔
      s.selected_endpoint.transport ≠ ZMK_TRANSPORT_USB) ∧
    (∀ (w : Int) (dsc : lv_draw_label_dsc_t) (txt : String),
      canvas_call.lv_canvas_draw_text 36 (-1) w dsc txt ∈ status.draw_top s →
        w = 20 ∧
        txt = (if s.selected_endpoint.transport = ZMK_TRANSPORT_USB then "USB" else "BT")) ∧
    (∀ (b : Nat) (c : Bool) (i : Int) (pc pb : Bool) (li : Nat) (ll : Option String),
      (status.draw_top
        { s with battery := b, charging := c, active_profile_index := i,
                 active_profile_connected := pc, active_profile_bonded := pb,
                 layer_index := li, layer_label := ll }).getLast? =
      (status.draw_top s).getLast?) := by
  have hne : ("USB" = "BT") = False := by decide
  have hne2 : ("BT" = "USB") = False := by decide
  refine ⟨by simp [status.draw_top], ?_, ?_, ?_, ?_⟩
  · by_cases h : s.selected_endpoint.transport = ZMK_TRANSPORT_USB <;> simp [h, hne2]
  · by_cases h : s.selected_endpoint.transport = ZMK_TRANSPORT_USB <;> simp [h, hne]
  · intro w dsc txt h
    simp only [status.draw_top, draw_battery, List.mem_append] at h
    rcases h with (h | h) | h
    · cases hc : s.charging <;> simp [hc] at h
    · split at h
      · simp at h
      · split at h <;> simp at h
    · simp at h
      exact ⟨h.1, h.2.2⟩
  · intro b c i pc pb li ll
    simp [status.draw_top]

/-- Every call of `draw_top` for a profile that is neither connected nor bonded:
the battery, the profile number, the connection label. -/
theorem draw_top_unbonded_calls (s : status_state)
    (hc : s.active_profile_connected = false) (hb : s.active_profile_bonded = false) :
    status.draw_top s = draw_battery s ++
      [ .lv_canvas_draw_text 24 (-1) 10
          (init_label_dsc .LVGL_FOREGROUND .lv_font_montserrat_12 .LV_TEXT_ALIGN_LEFT)
          (snprintf 4 (fmt_d (s.active_profile_index + 1))),
        .lv_canvas_draw_text 36 (-1) 20
          (init_label_dsc .LVGL_FOREGROUND .lv_font_montserrat_12 .LV_TEXT_ALIGN_LEFT)
          (if s.selected_endpoint.transport = ZMK_TRANSPORT_USB then "USB" else "BT") ] := by
  simp [status.draw_top, hc, hb]

/-- C9, evaluated: for a profile that is neither connected nor bonded `draw_top`
issues the five battery rectangles, the profile number and the connection
label, and nothing else: no outline of any kind is drawn around the number. -/
theorem draw_top_unbonded_draws_no_outline :
    status.draw_top
      { battery := 50, charging := false,
        selected_endpoint := { transport := ZMK_TRANSPORT_BLE },
        active_profile_index := 0, active_profile_connected := false,
        active_profile_bonded := false, layer_index := 0, layer_label := none } =
    [ .lv_canvas_draw_rect 0 0 20 8 { bg_color := .LVGL_FOREGROUND },
      .lv_canvas_draw_rect 1 1 18 6 { bg_color := .LVGL_BACKGROUND },
      .lv_canvas_draw_rect 2 2 9 4 { bg_color := .LVGL_FOREGROUND },
      .lv_canvas_draw_rect 20 2 2 4 { bg_color := .LVGL_FOREGROUND },
      .lv_canvas_draw_rect 21 3 1 2 { bg_color := .LVGL_BACKGROUND },
      .lv_canvas_draw_text 24 (-1) 10
        { color := .LVGL_FOREGROUND, font := .lv_font_montserrat_12,
          align := .LV_TEXT_ALIGN_LEFT } "1",
      .lv_canvas_draw_text 36 (-1) 20
        { color := .LVGL_FOREGROUND, font := .lv_font_montserrat_12,
          align := .LV_TEXT_ALIGN_LEFT } "BT" ] := by
  rfl

/-! ## The layer row of the central half -/

/-- C4: `draw_layer` issues exactly one call, a text at `(0, 16)` of width 128.
With a label the text is the label; without one and with a layer index of at
most 255 it is the letter L followed by the full decimal text of the index, at
most four characters, which the 8-byte buffer holds with its terminator. -/
theorem draw_layer_single_text (s : status_state) :
    (status.draw_layer s).length = 1 ∧
    (∀ name : String, s.layer_label = some name →
      status.draw_layer s =
        [ .lv_canvas_draw_text 0 16 128
            (init_label_dsc .LVGL_FOREGROUND .lv_font_montserrat_12 .LV_TEXT_ALIGN_LEFT) name ]) ∧
    (s.layer_label = none → s.layer_index ≤ 255 →
      status.draw_layer s =
        [ .lv_canvas_draw_text 0 16 128
            (init_label_dsc .LVGL_FOREGROUND .lv_font_montserrat_12 .LV_TEXT_ALIGN_LEFT)
            ("L" ++ toString s.layer_index) ] ∧
      ("L" ++ toString s.layer_index).length + 1 ≤ 8) := by
  refine ⟨?_, ?_, ?_⟩
  · cases hl : s.layer_label <;> simp [status.draw_layer, hl]
  · intro name hl
    simp [status.draw_layer, hl]
  · intro hl hi
    refine ⟨by simp [status.draw_layer, hl, layer_buf_untruncated _ hi], ?_⟩
    have := Nat.repr_length s.layer_index 3 (by decide) (by omega)
    have e : ("L" ++ toString s.layer_index).length = 1 + (Nat.repr s.layer_index).length := by
      rw [String.length_append]; rfl
    omega

/-- Witness for C4: layer 255 without a label. -/
theorem draw_layer_single_text_witness :
    status.draw_layer
      { battery := 0, charging := false, selected_endpoint := { transport := ZMK_TRANSPORT_USB },
        active_profile_index := 0, active_profile_connected := false,
        active_profile_bonded := false, layer_index := 255, layer_label := none } =
    [ .lv_canvas_draw_text 0 16 128
        (init_label_dsc .LVGL_FOREGROUND .lv_font_montserrat_12 .LV_TEXT_ALIGN_LEFT)
        ("L" ++ toString (255 : Nat)) ] :=
  ((draw_layer_single_text
    { battery := 0, charging := false, selected_endpoint := { transport := ZMK_TRANSPORT_USB },
      active_profile_index := 0, active_profile_connected := false,
      active_profile_bonded := false, layer_index := 255, layer_label := none }).2.2
    rfl (by decide)).1

/-! ## The connection dot of the peripheral half -/

/-- C8: after the battery rectangles `draw_peripheral_battery` draws the dot: one
filled foreground `4 x 4` square at `(24, 10)` when connected, and otherwise that
square followed by a background `2 x 2` square at `(25, 11)`. On every canvas
that contains the dot (the widget's is `32 x 16`) the four centre pixels end in
foreground colour exactly when connected, and the twelve border pixels of the
square end in foreground colour in both cases. -/
theorem peripheral_connection_dot (p : peripheral_state) (cv : canvas_px)
    (hw : 28 ≤ cv.w) (hh : 14 ≤ cv.h) :
    peripheral_status.draw_peripheral_battery p =
      (peripheral_status.draw_peripheral_battery p).take 5 ++
        (if p.connected then
          [ .lv_canvas_draw_rect 24 10 4 4 (init_rect_dsc .LVGL_FOREGROUND) ]
        else
          [ .lv_canvas_draw_rect 24 10 4 4 (init_rect_dsc .LVGL_FOREGROUND),
            .lv_canvas_draw_rect 25 11 2 2 (init_rect_dsc .LVGL_BACKGROUND) ]) ∧
    ∃ out : canvas_px,
      render cv (peripheral_status.draw_peripheral_battery p) = some out ∧
      (∀ X Y : Int, 25 ≤ X → X ≤ 26 → 11 ≤ Y → Y ≤ 12 →
        (out.px X Y = .LVGL_FOREGROUND ↔ p.connected = true)) ∧
      (∀ X Y : Int, 24 ≤ X → X ≤ 27 → 10 ≤ Y → Y ≤ 13 →
        ¬ (25 ≤ X ∧ X ≤ 26 ∧ 11 ≤ Y ∧ Y ≤ 12) → out.px X Y = .LVGL_FOREGROUND) := by
  refine ⟨by simp [peripheral_status.draw_peripheral_battery], ?_⟩
  cases hc : p.connected
  · refine ⟨_, by simp [peripheral_status.draw_peripheral_battery, hc, render, paint]; rfl, ?_, ?_⟩
    · intro X Y h1 h2 h3 h4
      have hin : 0 ≤ X ∧ X < cv.w ∧ 0 ≤ Y ∧ Y < cv.h ∧ rect_covers 25 11 2 2 X Y := by
        unfold rect_covers; omega
      simp [hin, init_rect_dsc]
    · intro X Y h1 h2 h3 h4 h5
      have hout : ¬ (0 ≤ X ∧ X < cv.w ∧ 0 ≤ Y ∧ Y < cv.h ∧ rect_covers 25 11 2 2 X Y) := by
        unfold rect_covers; omega
      have hin : 0 ≤ X ∧ X < cv.w ∧ 0 ≤ Y ∧ Y < cv.h ∧ rect_covers 24 10 4 4 X Y := by
        unfold rect_covers; omega
      simp only [if_neg hout, if_pos hin, init_rect_dsc]
  · refine ⟨_, by simp [peripheral_status.draw_peripheral_battery, hc, render, paint]; rfl, ?_, ?_⟩
    · intro X Y h1 h2 h3 h4
      have hin : 0 ≤ X ∧ X < cv.w ∧ 0 ≤ Y ∧ Y < cv.h ∧ rect_covers 24 10 4 4 X Y := by
        unfold rect_covers; omega
      simp only [if_pos hin, init_rect_dsc]
    · intro X Y h1 h2 h3 h4 _
      have hin : 0 ≤ X ∧ X < cv.w ∧ 0 ≤ Y ∧ Y < cv.h ∧ rect_covers 24 10 4 4 X Y := by
        unfold rect_covers; omega
      simp only [if_pos hin, init_rect_dsc]

/-- Witness for C8: a connected peripheral on its blank `32 x 16` canvas. -/
theorem peripheral_connection_dot_witness :
    ∃ out : canvas_px,
      render { w := 32, h := 16, px := fun _ _ => .LVGL_BACKGROUND }
        (peripheral_status.draw_peripheral_battery
          { battery := 50, charging := false, connected := true }) = some out ∧
      out.px 25 11 = .LVGL_FOREGROUND :=
  let ⟨out, hr, hcentre, _⟩ := (peripheral_connection_dot
    { battery := 50, charging := false, connected := true }
    { w := 32, h := 16, px := fun _ _ => .LVGL_BACKGROUND } (by decide) (by decide)).2
  ⟨out, hr, (hcentre 25 11 (by decide) (by decide) (by decide) (by decide)).2 rfl⟩

/-! ## The widget list -/

theorem for_each_of_chain {α : Type} (node : widget_ptr → Option widget_ptr)
    (body : widget_ptr → List α) :
    ∀ (l : List widget_ptr) (start : Option widget_ptr) (fuel : Nat),
      chain node l start → l.length ≤ fuel →
      SYS_SLIST_FOR_EACH_CONTAINER node body fuel start = some (l.flatMap body) := by
  intro l
  induction l with
  | nil =>
    intro start fuel hc _
    simp only [chain] at hc
    subst hc
    cases fuel <;> rfl
  | cons w l ih =>
    intro start fuel hc hf
    obtain ⟨hs, hrest⟩ := hc
    subst hs
    cases fuel with
    | zero => simp at hf
    | succ f =>
      have hf2 : l.length ≤ f := by simpa using hf
      simp [SYS_SLIST_FOR_EACH_CONTAINER, ih (node w) f hrest hf2]

theorem chain_update_of_not_mem (node : widget_ptr → Option widget_ptr) (w : widget_ptr)
    (v : Option widget_ptr) :
    ∀ (l : List widget_ptr) (start : Option widget_ptr),
      chain node l start → w ∉ l → chain (Function.update node w v) l start := by
  intro l
  induction l with
  | nil => intro start hc _; exact hc
  | cons x l ih =>
    intro start hc hw
    obtain ⟨hs, hrest⟩ := hc
    have hx : x ≠ w := fun h => hw (by simp [h])
    refine ⟨hs, ?_⟩
    rw [Function.update_noteq hx]
    exact ih _ hrest (fun h => hw (List.mem_cons_of_mem _ h))

theorem chain_link_after_last (node : widget_ptr → Option widget_ptr) (t w : widget_ptr) :
    ∀ (l : List widget_ptr) (start : Option widget_ptr),
      chain node (l ++ [t]) start → (l ++ [t]).Nodup → w ∉ l ++ [t] →
      chain (Function.update (Function.update node w none) t (some w)) (l ++ [t] ++ [w]) start := by
  intro l
  induction l with
  | nil =>
    intro start hc _ hw
    obtain ⟨hs, _⟩ := hc
    have hwt : w ≠ t := fun h => hw (by simp [h])
    refine ⟨hs, ?_, ?_⟩
    · simp
    · simp [chain, Function.update_noteq hwt]
  | cons x l ih =>
    intro start hc hd hw
    obtain ⟨hs, hrest⟩ := hc
    have hxt : x ≠ t := by
      intro h
      simp [h] at hd
    have hxw : x ≠ w := fun h => hw (by simp [h])
    have hd2 : (l ++ [t]).Nodup := (List.nodup_cons.mp hd).2
    have hw2 : w ∉ l ++ [t] := fun h => hw (List.mem_cons_of_mem _ h)
    refine ⟨hs, ?_⟩
    rw [Function.update_noteq hxt, Function.update_noteq hxw]
    exact ih _ hrest hd2 hw2

theorem slist_holds_append (m : widget_memory) (l : List widget_ptr) (w : widget_ptr)
    (h : slist_holds m.widgets m.node l) (hw : w ∉ l) :
    slist_holds (sys_slist_append m w).widgets (sys_slist_append m w).node (l ++ [w]) ∧
    (sys_slist_append m w).obj = m.obj ∧ (sys_slist_append m w).calls = m.calls := by
  have hd : (l ++ [w]).Nodup := by
    rw [List.nodup_append]
    exact ⟨h.nodup, List.nodup_singleton w, by simpa using hw⟩
  rcases List.eq_nil_or_concat l with rfl | ⟨l0, t, rfl⟩
  · have ht : m.widgets.tail = none := by simpa using h.tail_last
    refine ⟨⟨?_, ?_, hd⟩, ?_, ?_⟩ <;> simp [sys_slist_append, ht, chain]
  · rw [List.concat_eq_append] at h hw hd ⊢
    have ht : m.widgets.tail = some t := by simpa using h.tail_last
    refine ⟨⟨?_, ?_, hd⟩, ?_, ?_⟩
    · have := chain_link_after_last m.node t w l0 _ h.chained h.nodup hw
      simpa [sys_slist_append, ht] using this
    · simp [sys_slist_append, ht]
    · simp [sys_slist_append, ht]
    · simp [sys_slist_append, ht]

theorem slist_holds_startup :
    slist_holds widget_memory.startup.widgets widget_memory.startup.node [] :=
  ⟨rfl, rfl, List.nodup_nil⟩

theorem registered_of_holds (m : widget_memory) (l : List widget_ptr) (fuel : Nat)
    (h : slist_holds m.widgets m.node l) (hf : l.length ≤ fuel) :
    registered fuel m = some l := by
  unfold registered
  rw [for_each_of_chain m.node _ l _ fuel h.chained hf]
  congr 1
  induction l with
  | nil => rfl
  | cons x l ih => simp [List.flatMap_cons]

theorem status_update_cb_of_holds (m : widget_memory) (l : List widget_ptr) (fuel : Nat)
    (st : status_state) (h : slist_holds m.widgets m.node l) (hf : l.length ≤ fuel) :
    status.status_update_cb fuel st m =
      some { m with
        calls := m.calls ++
          l.flatMap (fun w => (status.draw_status st).map (fun c => (w, c))) } := by
  unfold status.status_update_cb
  rw [for_each_of_chain m.node _ l _ fuel h.chained hf]
  rfl

theorem update_peripheral_cb_of_holds (m : peripheral_status.memory) (l : List widget_ptr)
    (fuel : Nat) (st : peripheral_state) (h : slist_holds m.mem.widgets m.mem.node l)
    (hf : l.length ≤ fuel) :
    peripheral_status.update_peripheral_cb fuel st m =
      some { m with
        last_state := st,
        mem := { m.mem with
          calls := m.mem.calls ++
            l.flatMap (fun w => (peripheral_status.redraw st).map (fun c => (w, c))) } } := by
  unfold peripheral_status.update_peripheral_cb
  simp only []
  rw [for_each_of_chain m.mem.node _ l _ fuel h.chained hf]
  rfl

theorem status_init_step (fuel : Nat) (host : zmk_host) (m : widget_memory)
    (l : List widget_ptr) (widget : widget_ptr) (parent : lv_obj_ptr)
    (h : slist_holds m.widgets m.node l) (hw : widget ∉ l) (hf : l.length + 1 ≤ fuel) :
    ∃ m1, status.zmk_widget_status_init fuel host m widget parent = some (0, m1) ∧
      slist_holds m1.widgets m1.node (l ++ [widget]) ∧
      m1.obj = Function.update m.obj widget (some (status.canvas_of widget parent)) := by
  obtain ⟨hh, hobj, _⟩ := slist_holds_append
    { m with obj := Function.update m.obj widget (some (status.canvas_of widget parent)) } l widget h hw
  have hcb := status_update_cb_of_holds _ (l ++ [widget]) fuel (status.status_get_state host) hh
    (by simpa using hf)
  have key : status.zmk_widget_status_init fuel host m widget parent =
      (status.status_update_cb fuel (status.status_get_state host) (sys_slist_append
        { m with obj := Function.update m.obj widget (some (status.canvas_of widget parent)) }
        widget)).map (fun m3 => (0, m3)) := rfl
  rw [key, hcb]
  exact ⟨_, rfl, hh, hobj⟩

theorem peripheral_init_step (fuel : Nat) (host : zmk_host) (m : peripheral_status.memory)
    (l : List widget_ptr) (widget : widget_ptr) (parent : lv_obj_ptr)
    (h : slist_holds m.mem.widgets m.mem.node l) (hw : widget ∉ l)
    (hf : l.length + 1 ≤ fuel) :
    ∃ m1, peripheral_status.zmk_widget_status_init fuel host m widget parent = some (0, m1) ∧
      slist_holds m1.mem.widgets m1.mem.node (l ++ [widget]) ∧
      m1.mem.obj = Function.update m.mem.obj widget (some (peripheral_status.canvas_of widget parent)) := by
  obtain ⟨hh, hobj, _⟩ := slist_holds_append
    { m.mem with
      obj := Function.update m.mem.obj widget (some (peripheral_status.canvas_of widget parent)) }
    l widget h hw
  have hcb := update_peripheral_cb_of_holds
    { m with
      anims := m.anims ++
        [{ parent := parent, src := .anim_imgs, w := 128, h := 32, align := .LV_ALIGN_TOP_LEFT,
           x_ofs := 0, y_ofs := 0, duration := host.CONFIG_CUSTOM_ANIMATION_SPEED,
           repeat_infinite := true, started := true }],
      mem := sys_slist_append
        { m.mem with
          obj := Function.update m.mem.obj widget (some (peripheral_status.canvas_of widget parent)) }
        widget }
    (l ++ [widget]) fuel (peripheral_status.peripheral_get_state host) hh (by simpa using hf)
  have key : peripheral_status.zmk_widget_status_init fuel host m widget parent =
      (peripheral_status.update_peripheral_cb fuel (peripheral_status.peripheral_get_state host)
        { m with
          anims := m.anims ++
            [{ parent := parent, src := .anim_imgs, w := 128, h := 32,
               align := .LV_ALIGN_TOP_LEFT, x_ofs := 0, y_ofs := 0,
               duration := host.CONFIG_CUSTOM_ANIMATION_SPEED,
               repeat_infinite := true, started := true }],
          mem := sys_slist_append
            { m.mem with
              obj := Function.update m.mem.obj widget
                (some (peripheral_status.canvas_of widget parent)) }
            widget }).map (fun m3 => (0, m3)) := rfl
  rw [key, hcb]
  exact ⟨_, rfl, hh, hobj⟩

theorem status_init_run_holds (fuel : Nat) :
    ∀ (calls : List (widget_ptr × lv_obj_ptr × zmk_host)) (m : widget_memory)
      (l : List widget_ptr),
      slist_holds m.widgets m.node l → (l ++ calls.map Prod.fst).Nodup →
      l.length + calls.length ≤ fuel →
      ∃ m1, status.init_run fuel m calls = some (List.replicate calls.length 0, m1) ∧
        slist_holds m1.widgets m1.node (l ++ calls.map Prod.fst) ∧
        (∀ c ∈ calls, m1.obj c.1 = some (status.canvas_of c.1 c.2.1)) ∧
        (∀ w, w ∉ calls.map Prod.fst → m1.obj w = m.obj w) := by
  intro calls
  induction calls with
  | nil =>
    intro m l hl _ _
    exact ⟨m, rfl, by simpa using hl, by simp, fun _ _ => rfl⟩
  | cons c rest ih =>
    intro m l hl hd hf
    obtain ⟨w, p, host⟩ := c
    simp only [List.map_cons, List.length_cons] at hd hf
    have hw : w ∉ l := by
      intro hmem
      have := (List.nodup_append.mp hd).2.2
      exact this hmem (List.mem_cons_self _ _)
    have hwr : w ∉ rest.map Prod.fst := by
      have := (List.nodup_append.mp hd).2.1
      exact (List.nodup_cons.mp this).1
    obtain ⟨m1, e1, hh1, ho1⟩ := status_init_step fuel host m l w p hl hw (by omega)
    have hd2 : ((l ++ [w]) ++ rest.map Prod.fst).Nodup := by
      simpa [List.append_assoc] using hd
    obtain ⟨m2, e2, hh2, ho2, hk2⟩ := ih m1 (l ++ [w]) hh1 hd2 (by simp; omega)
    refine ⟨m2, ?_, ?_, ?_, ?_⟩
    · simp [status.init_run, e1, e2, List.replicate_succ]
    · simpa [List.append_assoc] using hh2
    · intro c hc
      rcases List.mem_cons.mp hc with rfl | hc
      · rw [hk2 w hwr, ho1]
        simp
      · exact ho2 c hc
    · intro w1 hw1
      have h1 : w1 ≠ w := fun h => hw1 (by simp [h])
      have h2 : w1 ∉ rest.map Prod.fst := fun h => hw1 (List.mem_cons_of_mem _ h)
      rw [hk2 w1 h2, ho1, Function.update_noteq h1]

theorem peripheral_init_run_holds (fuel : Nat) :
    ∀ (calls : List (widget_ptr × lv_obj_ptr × zmk_host)) (m : peripheral_status.memory)
      (l : List widget_ptr),
      slist_holds m.mem.widgets m.mem.node l → (l ++ calls.map Prod.fst).Nodup →
      l.length + calls.length ≤ fuel →
      ∃ m1, peripheral_status.init_run fuel m calls =
          some (List.replicate calls.length 0, m1) ∧
        slist_holds m1.mem.widgets m1.mem.node (l ++ calls.map Prod.fst) ∧
        (∀ c ∈ calls, m1.mem.obj c.1 = some (peripheral_status.canvas_of c.1 c.2.1)) ∧
        (∀ w, w ∉ calls.map Prod.fst → m1.mem.obj w = m.mem.obj w) := by
  intro calls
  induction calls with
  | nil =>
    intro m l hl _ _
    exact ⟨m, rfl, by simpa using hl, by simp, fun _ _ => rfl⟩
  | cons c rest ih =>
    intro m l hl hd hf
    obtain ⟨w, p, host⟩ := c
    simp only [List.map_cons, List.length_cons] at hd hf
    have hw : w ∉ l := by
      intro hmem
      have := (List.nodup_append.mp hd).2.2
      exact this hmem (List.mem_cons_self _ _)
    have hwr : w ∉ rest.map Prod.fst := by
      have := (List.nodup_append.mp hd).2.1
      exact (List.nodup_cons.mp this).1
    obtain ⟨m1, e1, hh1, ho1⟩ := peripheral_init_step fuel host m l w p hl hw (by omega)
    have hd2 : ((l ++ [w]) ++ rest.map Prod.fst).Nodup := by
      simpa [List.append_assoc] using hd
    obtain ⟨m2, e2, hh2, ho2, hk2⟩ := ih m1 (l ++ [w]) hh1 hd2 (by simp; omega)
    refine ⟨m2, ?_, ?_, ?_, ?_⟩
    · simp [peripheral_status.init_run, e1, e2, List.replicate_succ]
    · simpa [List.append_assoc] using hh2
    · intro c hc
      rcases List.mem_cons.mp hc with rfl | hc
      · rw [hk2 w hwr, ho1]
        simp
      · exact ho2 c hc
    · intro w1 hw1
      have h1 : w1 ≠ w := fun h => hw1 (by simp [h])
      have h2 : w1 ∉ rest.map Prod.fst := fun h => hw1 (List.mem_cons_of_mem _ h)
      rw [hk2 w1 h2, ho1, Function.update_noteq h1]

theorem for_each_self_loop {α : Type} (node : widget_ptr → Option widget_ptr)
    (body : widget_ptr → List α) (w : widget_ptr) (h : node w = some w) :
    ∀ fuel : Nat, SYS_SLIST_FOR_EACH_CONTAINER node body fuel (some w) = none := by
  intro fuel
  induction fuel with
  | zero => rfl
  | succ f ih => simp [SYS_SLIST_FOR_EACH_CONTAINER, h, ih]

/-- Why the widgets must be distinct: registering one widget twice links its node
to itself, and the redraw loop of the second initialiser never reaches `NULL`,
whatever the fuel. -/
theorem status_init_same_widget_twice_never_returns (fuel : Nat) (host1 host2 : zmk_host)
    (w : widget_ptr) (p1 p2 : lv_obj_ptr) :
    status.init_run fuel widget_memory.startup [(w, p1, host1), (w, p2, host2)] = none := by
  cases fuel with
  | zero => rfl
  | succ f =>
    have hloop := for_each_self_loop (Function.update (fun _ => none) w (some w))
      (fun widget => (status.draw_status (status.status_get_state host2)).map
        (fun c => (widget, c))) w (by simp) f
    simp [status.init_run, status.zmk_widget_status_init, status.widget_status_init,
      status.status_update_cb, sys_slist_append, widget_memory.startup, SYS_SLIST_STATIC_INIT,
      SYS_SLIST_FOR_EACH_CONTAINER, hloop]

theorem nodup_take_map_fst (calls : List (widget_ptr × lv_obj_ptr × zmk_host)) (k : Nat)
    (hd : (calls.map Prod.fst).Nodup) : ((calls.take k).map Prod.fst).Nodup := by
  rw [List.map_take]
  exact hd.sublist (List.take_sublist _ _)

/-! ## Registration and redraw -/

/-- C7: take any run of `zmk_widget_status_init` calls on pairwise distinct
widgets, starting from the empty list, with fuel for one traversal. After the
first `k` calls, on either half: every call has returned 0; a traversal of the
list visits exactly the first `k` widgets in call order, so each call appended
its widget at the end and left the earlier entries as they were; and a following
`status_update_cb` (central) or `update_peripheral_cb` (peripheral) returns,
having issued for each of these widgets in turn, once, a full background fill
followed by that half's drawing calls. -/
theorem widget_list_registration (calls : List (widget_ptr × lv_obj_ptr × zmk_host))
    (hd : (calls.map Prod.fst).Nodup) (fuel : Nat) (hf : calls.length ≤ fuel)
    (k : Nat) (hk : k ≤ calls.length) :
    (∃ m, status.init_run fuel widget_memory.startup (calls.take k) =
          some (List.replicate k 0, m) ∧
        registered fuel m = some ((calls.take k).map Prod.fst) ∧
        ∀ st : status_state, status.status_update_cb fuel st m =
          some { m with
            calls := m.calls ++ ((calls.take k).map Prod.fst).flatMap (fun w =>
              (canvas_call.lv_canvas_fill_bg .LVGL_BACKGROUND LV_OPA_COVER ::
                (status.draw_top st ++ status.draw_layer st)).map (fun c => (w, c))) }) ∧
    (∃ m, peripheral_status.init_run fuel peripheral_status.memory.startup (calls.take k) =
          some (List.replicate k 0, m) ∧
        registered fuel m.mem = some ((calls.take k).map Prod.fst) ∧
        ∀ st : peripheral_state, peripheral_status.update_peripheral_cb fuel st m =
          some { m with
            last_state := st,
            mem := { m.mem with
              calls := m.mem.calls ++ ((calls.take k).map Prod.fst).flatMap (fun w =>
                (canvas_call.lv_canvas_fill_bg .LVGL_BACKGROUND LV_OPA_COVER ::
                  peripheral_status.draw_peripheral_battery st).map (fun c => (w, c))) } }) := by
  have hdk := nodup_take_map_fst calls k hd
  have hlen : (calls.take k).length = k := by simp [hk]
  have hlen2 : ((calls.take k).map Prod.fst).length ≤ fuel := by simp; omega
  constructor
  · obtain ⟨m, e, hh, _, _⟩ := status_init_run_holds fuel (calls.take k) widget_memory.startup []
      slist_holds_startup (by simpa using hdk) (by simp; omega)
    rw [hlen] at e
    rw [List.nil_append] at hh
    exact ⟨m, e, registered_of_holds m _ fuel hh hlen2,
      fun st => status_update_cb_of_holds m _ fuel st hh hlen2⟩
  · obtain ⟨m, e, hh, _, _⟩ := peripheral_init_run_holds fuel (calls.take k)
      peripheral_status.memory.startup [] slist_holds_startup (by simpa using hdk)
      (by simp; omega)
    rw [hlen] at e
    rw [List.nil_append] at hh
    exact ⟨m, e, registered_of_holds m.mem _ fuel hh hlen2,
      fun st => update_peripheral_cb_of_holds m _ fuel st hh hlen2⟩

/-- Witness for C7: two widgets, both registered. -/
theorem widget_list_registration_witness :
    ∃ m, status.init_run 2 widget_memory.startup
          ([(10, 1, host_sample), (20, 1, host_sample)].take 2) =
        some (List.replicate 2 0, m) ∧
      registered 2 m = some (([(10, 1, host_sample), (20, 1, host_sample)].take 2).map Prod.fst) :=
  let ⟨m, e, r, _⟩ := (widget_list_registration [(10, 1, host_sample), (20, 1, host_sample)]
    (by decide) 2 (by decide) 2 (by decide)).1
  ⟨m, e, r⟩

/-! ## Canvas geometry -/

